import Mathlib

/-!
Verification of the SYN admission-control engine of the eBPF repository.

The embedding below translates the BPF C programs embedded in
src/XDP_only.py and src/xdp_firewall_shim_con_metriche_v2.py, the
iptables rule table of src/iptables_only.py, and the Python summary
code of the monitoring loops, into Lean definitions.  u64 counters are
modelled as Nat (they are only ever incremented by one per packet, so
wraparound is unreachable for any trace short enough to matter); the
one place where u64 wraparound is semantically relevant, the timestamp
subtraction now - last_ts, is modelled explicitly modulo 2^64 by sub64.
Frames are lists of bytes; a byte read is a fallible lookup, so a
classification function returns none exactly when the C program would
read out of bounds.
-/

set_option maxRecDepth 16384

namespace EBPF

/-- 2^64, the modulus of u64 arithmetic. -/
def U64 : Nat := 18446744073709551616

/-- TIME_WINDOW_NS from the BPF source: 2 seconds in nanoseconds. -/
def TIME_WINDOW_NS : Nat := 2000000000

/-- THRESHOLD from the BPF source: at most 10 SYNs per window. -/
def THRESHOLD : Nat := 10

/-- Capacity of BPF_HASH(rate_limit_map, ...) and BPF_HASH(ip_blocked_map, ...). -/
def MAP_CAPACITY : Nat := 16384

/-- u64 subtraction a - b as the C programs compute it, modulo 2^64.
Both operands are assumed already reduced below 2^64 by their producers. -/
def sub64 (a b : Nat) : Nat := (a + (U64 - b % U64)) % U64

/-- struct rate_val from the BPF source: last window start and count in window. -/
structure RateVal where
  last_ts : Nat
  count : Nat
deriving DecidableEq

/-- A BPF hash map is modelled as an association list (key, value). -/
def mapLookup {α : Type} : List (Nat × α) → Nat → Option α
  | [], _ => none
  | (k, v) :: rest, key => if k = key then some v else mapLookup rest key

/-- Replace the value bound to a key that is already present. -/
def mapReplace {α : Type} : List (Nat × α) → Nat → α → List (Nat × α)
  | [], _, _ => []
  | (k, v) :: rest, key, nv =>
      if k = key then (key, nv) :: rest else (k, v) :: mapReplace rest key nv

/-- BPF hash update semantics: replace if the key exists; otherwise insert
only when the table is below capacity, and silently do nothing when full. -/
def mapUpdate {α : Type} (m : List (Nat × α)) (cap : Nat) (key : Nat) (v : α) :
    List (Nat × α) :=
  if (mapLookup m key).isSome then mapReplace m key v
  else if m.length < cap then (key, v) :: m
  else m

/-- check_rate_limit from both BPF variants (the two copies are identical).
Takes the rate_limit_map and the current bpf_ktime_get_ns value; returns
the updated map and the C return value (true means over threshold, drop). -/
def check_rate_limit (m : List (Nat × RateVal)) (src_ip : Nat) (now : Nat) :
    List (Nat × RateVal) × Bool :=
  match mapLookup m src_ip with
  | none => (mapUpdate m MAP_CAPACITY src_ip ⟨now, 1⟩, false)
  | some rv =>
      if TIME_WINDOW_NS < sub64 now rv.last_ts then
        (mapUpdate m MAP_CAPACITY src_ip ⟨now, 1⟩, false)
      else
        let newCount := rv.count + 1
        (mapUpdate m MAP_CAPACITY src_ip ⟨rv.last_ts, newCount⟩,
         decide (THRESHOLD < newCount))

/-- The fields of the parsed headers that the firewalls go on to use:
the IPv4 source address (the u32 the C loads from iph->saddr) and the
two TCP flag bits tested by the programs. -/
structure HeaderView where
  saddr : Nat
  syn : Bool
  ack : Bool
deriving DecidableEq

/-- Outcome of the header-parsing prefix shared by both XDP programs. -/
inductive ParseOutcome where
  | malformed
  | notApplicable
  | parsed (hv : HeaderView)
deriving DecidableEq

/-- The parsing prefix of xdp_simple_firewall and xdp_firewall, translated
check for check.  Each pointer bounds check of the C becomes a length
check; each field load becomes a fallible byte lookup, so the result is
none exactly when the C would read outside the frame.  malformed means a
bounds check failed (the C returns XDP_PASS); notApplicable means a
non-IPv4 ethertype or non-TCP protocol (also XDP_PASS).  The saddr value
is the little-endian u32 load of bytes 26..29, as on the x86 hosts the
programs run on; it is used only as a map key.  The syn and ack bits are
bits 1 and 4 of the TCP flags byte (frame byte 14 + ihl*4 + 13). -/
def parseFrame (f : List Nat) : Option ParseOutcome :=
  if f.length < 14 then some .malformed else
  (f[12]?).bind fun b12 =>
  (f[13]?).bind fun b13 =>
  if b12 * 256 + b13 ≠ 2048 then some .notApplicable else
  if f.length < 34 then some .malformed else
  (f[14]?).bind fun b14 =>
  (f[23]?).bind fun proto =>
  if proto ≠ 6 then some .notApplicable else
  (f[26]?).bind fun s0 =>
  (f[27]?).bind fun s1 =>
  (f[28]?).bind fun s2 =>
  (f[29]?).bind fun s3 =>
  if f.length < 14 + (b14 % 16) * 4 + 20 then some .malformed else
  (f[14 + (b14 % 16) * 4 + 13]?).bind fun flags =>
  some (.parsed ⟨s0 + s1 * 256 + s2 * 65536 + s3 * 16777216,
                 flags.testBit 1, flags.testBit 4⟩)

/-- XDP verdicts used by the programs. -/
inductive Verdict where
  | pass
  | drop
deriving DecidableEq

/-- State of XDP_only.py: rate_limit_map plus stats_map[0] (total SYN)
and stats_map[1] (dropped SYN). -/
structure FWState where
  rate_limit_map : List (Nat × RateVal)
  syn_total : Nat
  syn_dropped : Nat
deriving DecidableEq

/-- The state at program load: empty map, zeroed counters. -/
def FWState.init : FWState := ⟨[], 0, 0⟩

/-- xdp_simple_firewall from XDP_only.py: one step of the transient
variant on one frame at one timestamp.  Returns none only on an
out-of-bounds read (proved never to happen). -/
def xdp_simple_firewall (st : FWState) (f : List Nat) (now : Nat) :
    Option (FWState × Verdict) :=
  (parseFrame f).bind fun po =>
  match po with
  | .malformed => some (st, .pass)
  | .notApplicable => some (st, .pass)
  | .parsed hv =>
      if hv.syn && !hv.ack then
        let st1 : FWState := { st with syn_total := st.syn_total + 1 }
        let res := check_rate_limit st1.rate_limit_map hv.saddr now
        let st2 : FWState := { st1 with rate_limit_map := res.1 }
        if res.2 then
          some ({ st2 with syn_dropped := st2.syn_dropped + 1 }, .drop)
        else
          some (st2, .pass)
      else
        some (st, .pass)

/-- State of xdp_firewall_shim_con_metriche_v2.py: rate_limit_map,
ip_blocked_map and the single stats_map[0] counter. -/
structure FW2State where
  rate_limit_map : List (Nat × RateVal)
  ip_blocked_map : List (Nat × Nat)
  syn_total : Nat
deriving DecidableEq

/-- The state at program load for the blocklist variant. -/
def FW2State.init : FW2State := ⟨[], [], 0⟩

/-- xdp_firewall from xdp_firewall_shim_con_metriche_v2.py: one step of
the persistent-blocklist variant.  Note that, exactly as in the source,
stats_map[0] is incremented for every successfully parsed TCP-over-IPv4
packet, before the pure-SYN test, and the ip_blocked_map lookup happens
inside the pure-SYN branch. -/
def xdp_firewall (st : FW2State) (f : List Nat) (now : Nat) :
    Option (FW2State × Verdict) :=
  (parseFrame f).bind fun po =>
  match po with
  | .malformed => some (st, .pass)
  | .notApplicable => some (st, .pass)
  | .parsed hv =>
      let st1 : FW2State := { st with syn_total := st.syn_total + 1 }
      if hv.syn && !hv.ack then
        match mapLookup st1.ip_blocked_map hv.saddr with
        | some _ => some (st1, .drop)
        | none =>
            let res := check_rate_limit st1.rate_limit_map hv.saddr now
            let st2 : FW2State := { st1 with rate_limit_map := res.1 }
            if res.2 then
              some ({ st2 with
                      ip_blocked_map :=
                        mapUpdate st2.ip_blocked_map MAP_CAPACITY hv.saddr 1 },
                    .drop)
            else
              some (st2, .pass)
      else
        some (st1, .pass)

/-- A 54-byte Ethernet/IPv4/TCP frame: ethertype 0x0800, ihl 5, ttl 64,
protocol TCP, source address src (low byte of the u32 key), data offset
5, and the given TCP flags byte at offset 47. -/
def tcpFrame (src flags : Nat) : List Nat :=
  [0, 0, 0, 0, 0, 0, 0, 0, 0, 0, 0, 0, 8, 0,
   69, 0, 0, 40, 0, 0, 0, 0, 64, 6, 0, 0, src, 0, 0, 0, 0, 0, 0, 0,
   0, 0, 0, 0, 0, 0, 0, 0, 0, 0, 0, 0, 80, flags, 0, 0, 0, 0, 0, 0]

/-- Whether a frame is a pure SYN in the sense of the programs:
it parses as TCP-over-IPv4 with SYN set and ACK clear. -/
def isPureSyn (f : List Nat) : Bool :=
  match parseFrame f with
  | some (.parsed hv) => hv.syn && !hv.ack
  | _ => false

/-- Process a list of (frame, timestamp) events through the transient
variant, collecting the verdicts. -/
def runFrames (st : FWState) : List (List Nat × Nat) → Option (FWState × List Verdict)
  | [] => some (st, [])
  | (f, now) :: rest =>
      (xdp_simple_firewall st f now).bind fun r =>
      (runFrames r.1 rest).bind fun r2 =>
      some (r2.1, r.2 :: r2.2)

section Lemmas

/-- On in-range operands the u64 subtraction is plain subtraction. -/
theorem sub64_eq_sub {a b : Nat} (hba : b ≤ a) (ha : a < U64) :
    sub64 a b = a - b := by
  simp only [sub64, U64] at *
  omega

theorem mapLookup_replace_self {α : Type} (m : List (Nat × α)) (k : Nat) (v : α)
    (h : (mapLookup m k).isSome) : mapLookup (mapReplace m k v) k = some v := by
  induction m with
  | nil => simp [mapLookup] at h
  | cons p rest ih =>
      by_cases hk : p.1 = k
      · simp [mapReplace, mapLookup, hk]
      · simp [mapReplace, mapLookup, hk] at h ⊢
        exact ih h

theorem length_mapReplace {α : Type} (m : List (Nat × α)) (k : Nat) (v : α) :
    (mapReplace m k v).length = m.length := by
  induction m with
  | nil => rfl
  | cons p rest ih =>
      by_cases hk : p.1 = k <;> simp [mapReplace, hk, ih]

theorem mapUpdate_present {α : Type} (m : List (Nat × α)) (cap k : Nat) (v : α)
    (h : (mapLookup m k).isSome) : mapUpdate m cap k v = mapReplace m k v := by
  simp [mapUpdate, h]

/-- check_rate_limit on an unknown source with room in the table:
inserts a fresh window record and admits the packet. -/
theorem crl_absent {m : List (Nat × RateVal)} {src : Nat} (now : Nat)
    (h : mapLookup m src = none) (hcap : m.length < MAP_CAPACITY) :
    check_rate_limit m src now = ((src, ⟨now, 1⟩) :: m, false) := by
  simp [check_rate_limit, h, mapUpdate, hcap]

/-- check_rate_limit on an unknown source with the table full:
the insert silently fails, the map is unchanged, and the packet is
still admitted. -/
theorem crl_absent_full {m : List (Nat × RateVal)} {src : Nat} (now : Nat)
    (h : mapLookup m src = none) (hcap : MAP_CAPACITY ≤ m.length) :
    check_rate_limit m src now = (m, false) := by
  simp [check_rate_limit, h, mapUpdate, Nat.not_lt.mpr hcap]

/-- check_rate_limit after the window has expired: reset and admit. -/
theorem crl_reset {m : List (Nat × RateVal)} {src : Nat} {rv : RateVal} (now : Nat)
    (h : mapLookup m src = some rv)
    (hw : TIME_WINDOW_NS < sub64 now rv.last_ts) :
    check_rate_limit m src now = (mapReplace m src ⟨now, 1⟩, false) := by
  have hs : (mapLookup m src).isSome := by simp [h]
  simp [check_rate_limit, h, hw, mapUpdate_present _ _ _ _ hs]

/-- check_rate_limit inside the current window: increment, compare. -/
theorem crl_incr {m : List (Nat × RateVal)} {src : Nat} {rv : RateVal} (now : Nat)
    (h : mapLookup m src = some rv)
    (hw : ¬ TIME_WINDOW_NS < sub64 now rv.last_ts) :
    check_rate_limit m src now =
      (mapReplace m src ⟨rv.last_ts, rv.count + 1⟩,
       decide (THRESHOLD < rv.count + 1)) := by
  have hs : (mapLookup m src).isSome := by simp [h]
  simp [check_rate_limit, h, hw, mapUpdate_present _ _ _ _ hs]

/-- tcpFrame with flags byte 2 parses as a pure SYN from src. -/
theorem parse_synFrame (src : Nat) :
    parseFrame (tcpFrame src 2) = some (.parsed ⟨src, true, false⟩) := by
  simp [parseFrame, tcpFrame]
  exact ⟨rfl, rfl⟩

/-- tcpFrame with flags byte 16 parses as a pure ACK from src. -/
theorem parse_ackFrame (src : Nat) :
    parseFrame (tcpFrame src 16) = some (.parsed ⟨src, false, true⟩) := by
  simp [parseFrame, tcpFrame]
  exact ⟨rfl, rfl⟩

/-- One transient-variant step on a pure SYN from src, written in terms
of check_rate_limit. -/
theorem xdp_simple_firewall_syn (st : FWState) (src now : Nat) :
    xdp_simple_firewall st (tcpFrame src 2) now =
      if (check_rate_limit st.rate_limit_map src now).2 then
        some (⟨(check_rate_limit st.rate_limit_map src now).1,
               st.syn_total + 1, st.syn_dropped + 1⟩, .drop)
      else
        some (⟨(check_rate_limit st.rate_limit_map src now).1,
               st.syn_total + 1, st.syn_dropped⟩, .pass) := by
  rw [xdp_simple_firewall, parse_synFrame]
  cases h : (check_rate_limit st.rate_limit_map src now).2 <;> simp [h]

theorem runFrames_append (st : FWState) (l1 l2 : List (List Nat × Nat)) :
    runFrames st (l1 ++ l2) =
      (runFrames st l1).bind fun r =>
      (runFrames r.1 l2).bind fun r2 =>
      some (r2.1, r.2 ++ r2.2) := by
  induction l1 generalizing st with
  | nil => simp [runFrames]
  | cons e rest ih =>
      cases e with
      | mk f now =>
          cases hstep : xdp_simple_firewall st f now with
          | none => simp [runFrames, hstep]
          | some r =>
              cases hrest : runFrames r.1 rest with
              | none => simp [runFrames, hstep, ih, hrest]
              | some r2 =>
                  cases hl2 : runFrames r2.1 l2 with
                  | none => simp [runFrames, hstep, ih, hrest, hl2]
                  | some r3 => simp [runFrames, hstep, ih, hrest, hl2]

/-- Pure SYNs from a source whose window record is (t0, c), all within
the window, are all admitted as long as the count stays at or below the
threshold; the count advances by one per packet. -/
theorem runFrames_syn_passes (src t0 : Nat) (ts : List Nat) :
    ∀ (st : FWState) (c : Nat),
      mapLookup st.rate_limit_map src = some ⟨t0, c⟩ →
      (∀ t ∈ ts, t0 ≤ t ∧ t < U64 ∧ t - t0 ≤ TIME_WINDOW_NS) →
      c + ts.length ≤ THRESHOLD →
      ∃ st2, runFrames st (ts.map fun t => (tcpFrame src 2, t)) =
               some (st2, List.replicate ts.length Verdict.pass) ∧
             mapLookup st2.rate_limit_map src = some ⟨t0, c + ts.length⟩ ∧
             st2.syn_total = st.syn_total + ts.length ∧
             st2.syn_dropped = st.syn_dropped := by
  induction ts with
  | nil =>
      intro st c hl _ _
      exact ⟨st, by simp [runFrames], by simpa using hl, by simp, rfl⟩
  | cons t ts ih =>
      intro st c hl hts hcnt
      obtain ⟨ht0, htU, htW⟩ := hts t (List.mem_cons_self t ts)
      have hwin : ¬ TIME_WINDOW_NS < sub64 t t0 := by
        rw [sub64_eq_sub ht0 htU]; omega
      have hcrl := @crl_incr _ _ ⟨t0, c⟩ t hl hwin
      have hcnt2 : c + (t :: ts).length ≤ THRESHOLD := hcnt
      have hdec : decide (THRESHOLD < c + 1) = false := by
        apply decide_eq_false
        simp only [List.length_cons] at hcnt2
        omega
      have hstep : xdp_simple_firewall st (tcpFrame src 2) t =
          some (⟨mapReplace st.rate_limit_map src ⟨t0, c + 1⟩,
                 st.syn_total + 1, st.syn_dropped⟩, Verdict.pass) := by
        rw [xdp_simple_firewall_syn, hcrl]
        simp [hdec]
      have hl3 : mapLookup (mapReplace st.rate_limit_map src ⟨t0, c + 1⟩) src
          = some ⟨t0, c + 1⟩ :=
        mapLookup_replace_self _ _ _ (by simp [hl])
      have hcnt3 : (c + 1) + ts.length ≤ THRESHOLD := by
        simp only [List.length_cons] at hcnt2
        omega
      obtain ⟨st2, hrun, hlook, htot, hdrop⟩ :=
        ih ⟨mapReplace st.rate_limit_map src ⟨t0, c + 1⟩,
            st.syn_total + 1, st.syn_dropped⟩ (c + 1) hl3
          (fun x hx => hts x (List.mem_cons_of_mem _ hx)) hcnt3
      refine ⟨st2, ?_, ?_, ?_, ?_⟩
      · simp [runFrames, hstep, hrun, List.replicate_succ]
      · have : c + 1 + ts.length = c + (t :: ts).length := by
          simp only [List.length_cons]; omega
        rwa [this] at hlook
      · rw [htot]
        show st.syn_total + 1 + ts.length = st.syn_total + (t :: ts).length
        simp only [List.length_cons]
        omega
      · exact hdrop

end Lemmas

/-- C1: a single source whose first pure SYN opens a fresh window and
whose next ten pure SYNs all arrive within 2 seconds of it gets verdict
Pass on the first ten packets and Drop on the eleventh, whose count 11
exceeds THRESHOLD = 10.  The source is assumed absent from the flow
table with room to insert (the fixed-capacity table admits it). -/
theorem first_ten_pass_eleventh_drops
    (st : FWState) (src t0 tlast : Nat) (ts : List Nat)
    (habs : mapLookup st.rate_limit_map src = none)
    (hcap : st.rate_limit_map.length < MAP_CAPACITY)
    (hlen : ts.length = 9)
    (hts : ∀ t ∈ ts, t0 ≤ t ∧ t < U64 ∧ t - t0 ≤ TIME_WINDOW_NS)
    (hlast0 : t0 ≤ tlast) (hlastU : tlast < U64)
    (hlastW : tlast - t0 ≤ TIME_WINDOW_NS) :
    ∃ st2, runFrames st ((tcpFrame src 2, t0) ::
        ((ts.map fun t => (tcpFrame src 2, t)) ++ [(tcpFrame src 2, tlast)])) =
      some (st2, List.replicate 10 Verdict.pass ++ [Verdict.drop]) := by
  have hcrl0 := crl_absent t0 habs hcap
  have hstep0 : xdp_simple_firewall st (tcpFrame src 2) t0 =
      some (⟨(src, ⟨t0, 1⟩) :: st.rate_limit_map,
             st.syn_total + 1, st.syn_dropped⟩, Verdict.pass) := by
    rw [xdp_simple_firewall_syn, hcrl0]
    simp
  have hl1 : mapLookup ((src, (⟨t0, 1⟩ : RateVal)) :: st.rate_limit_map) src
      = some ⟨t0, 1⟩ := by simp [mapLookup]
  obtain ⟨stm, hrunm, hlookm, _, _⟩ :=
    runFrames_syn_passes src t0 ts
      ⟨(src, ⟨t0, 1⟩) :: st.rate_limit_map, st.syn_total + 1, st.syn_dropped⟩ 1
      hl1 hts (by rw [hlen]; decide)
  rw [hlen] at hlookm
  have hwinl : ¬ TIME_WINDOW_NS < sub64 tlast t0 := by
    rw [sub64_eq_sub hlast0 hlastU]; omega
  have hcrll := @crl_incr _ _ ⟨t0, 10⟩ tlast hlookm hwinl
  have hdecl : decide (THRESHOLD < 10 + 1) = true := by decide
  have hstepl : xdp_simple_firewall stm (tcpFrame src 2) tlast =
      some (⟨mapReplace stm.rate_limit_map src ⟨t0, 10 + 1⟩,
             stm.syn_total + 1, stm.syn_dropped + 1⟩, Verdict.drop) := by
    rw [xdp_simple_firewall_syn, hcrll]
    simp [hdecl]
  refine ⟨⟨mapReplace stm.rate_limit_map src ⟨t0, 10 + 1⟩,
           stm.syn_total + 1, stm.syn_dropped + 1⟩, ?_⟩
  rw [show ((tcpFrame src 2, t0) ::
        ((ts.map fun t => (tcpFrame src 2, t)) ++ [(tcpFrame src 2, tlast)])) =
      ((tcpFrame src 2, t0) :: (ts.map fun t => (tcpFrame src 2, t)))
        ++ [(tcpFrame src 2, tlast)] by simp]
  rw [runFrames_append]
  have hrunfirst : runFrames st
      ((tcpFrame src 2, t0) :: (ts.map fun t => (tcpFrame src 2, t))) =
      some (stm, Verdict.pass :: List.replicate 9 Verdict.pass) := by
    simp only [runFrames, hstep0, Option.bind]
    rw [hrunm, hlen]
  rw [hrunfirst]
  simp [runFrames, hstepl, List.replicate_succ]

/-- Witness for C1 at a concrete input: a fresh source sends 11 pure
SYNs at time 0; the first ten pass and the eleventh is dropped. -/
theorem first_ten_pass_eleventh_drops_witness :
    ∃ st2, runFrames FWState.init ((tcpFrame 1 2, 0) ::
        ((([0, 0, 0, 0, 0, 0, 0, 0, 0] : List Nat).map
            fun t => (tcpFrame 1 2, t)) ++ [(tcpFrame 1 2, 0)])) =
      some (st2, List.replicate 10 Verdict.pass ++ [Verdict.drop]) :=
  first_ten_pass_eleventh_drops FWState.init 1 0 0 [0, 0, 0, 0, 0, 0, 0, 0, 0]
    rfl (by decide) rfl (by decide) (Nat.le_refl 0) (by decide) (by decide)

/-- C5: in the transient variant, a pure SYN from a source with an
existing window record arriving strictly more than 2 seconds after the
window start resets the window to (now, 1) and is admitted, no matter
how large the previous count was. -/
theorem window_reset_readmits (st : FWState) (src now : Nat) (rv : RateVal)
    (h : mapLookup st.rate_limit_map src = some rv)
    (hle : rv.last_ts ≤ now) (hU : now < U64)
    (hw : TIME_WINDOW_NS < now - rv.last_ts) :
    xdp_simple_firewall st (tcpFrame src 2) now =
      some (⟨mapReplace st.rate_limit_map src ⟨now, 1⟩,
             st.syn_total + 1, st.syn_dropped⟩, Verdict.pass) ∧
    mapLookup (mapReplace st.rate_limit_map src ⟨now, 1⟩) src = some ⟨now, 1⟩ := by
  have hw2 : TIME_WINDOW_NS < sub64 now rv.last_ts := by
    rw [sub64_eq_sub hle hU]; exact hw
  have hcrl := crl_reset now h hw2
  constructor
  · rw [xdp_simple_firewall_syn, hcrl]
    simp
  · exact mapLookup_replace_self _ _ _ (by simp [h])

/-- Witness for C5: a source that sent 99 SYNs in the window starting at
time 0 is re-admitted by its next SYN at 3 seconds. -/
theorem window_reset_readmits_witness :
    xdp_simple_firewall ⟨[(5, ⟨0, 99⟩)], 99, 89⟩ (tcpFrame 5 2) 3000000000 =
      some (⟨mapReplace [((5 : Nat), (⟨0, 99⟩ : RateVal))] 5
               (⟨3000000000, 1⟩ : RateVal), 99 + 1, 89⟩,
            Verdict.pass) ∧
    mapLookup (mapReplace [((5 : Nat), (⟨0, 99⟩ : RateVal))] 5
               (⟨3000000000, 1⟩ : RateVal)) 5
      = some ⟨3000000000, 1⟩ :=
  window_reset_readmits ⟨[(5, ⟨0, 99⟩)], 99, 89⟩ 5 3000000000 ⟨0, 99⟩
    rfl (by decide) (by decide) (by decide)

/-- The ethertype field as read (total, with default 0) from a frame. -/
def ethertypeOf (f : List Nat) : Nat := (f[12]?).getD 0 * 256 + (f[13]?).getD 0

/-- The IPv4 protocol byte as read (total, with default 0) from a frame. -/
def protoOf (f : List Nat) : Nat := (f[23]?).getD 0

/-- The IPv4 header-length field as read (total, with default 0). -/
def ihlOf (f : List Nat) : Nat := (f[14]?).getD 0 % 16

/-- A frame laid out as Ethernet/IPv4/TCP, as far as its bytes exist:
an IPv4 ethertype once the Ethernet header is present, and a TCP
protocol byte with a well-formed header length (ihl at least 5) once
the fixed IPv4 header is present. -/
def EthIpv4TcpLayout (f : List Nat) : Prop :=
  (14 ≤ f.length → ethertypeOf f = 2048) ∧
  (34 ≤ f.length → protoOf f = 6 ∧ 5 ≤ ihlOf f)

section SafetyLemmas

/-- Header parsing never reads out of bounds: every byte access is
covered by a preceding bounds check. -/
theorem parseFrame_isSome (f : List Nat) : (parseFrame f).isSome := by
  rw [parseFrame]
  by_cases h14 : f.length < 14
  · rw [if_pos h14]; rfl
  rw [if_neg h14]
  push_neg at h14
  rw [List.getElem?_eq_getElem (by omega : 12 < f.length),
      List.getElem?_eq_getElem (by omega : 13 < f.length)]
  simp only [Option.some_bind]
  by_cases he : f[12] * 256 + f[13] ≠ 2048
  · rw [if_pos he]; rfl
  rw [if_neg he]
  by_cases h34 : f.length < 34
  · rw [if_pos h34]; rfl
  rw [if_neg h34]
  push_neg at h34
  rw [List.getElem?_eq_getElem (by omega : 14 < f.length),
      List.getElem?_eq_getElem (by omega : 23 < f.length)]
  simp only [Option.some_bind]
  by_cases hp : f[23] ≠ 6
  · rw [if_pos hp]; rfl
  rw [if_neg hp]
  rw [List.getElem?_eq_getElem (by omega : 26 < f.length),
      List.getElem?_eq_getElem (by omega : 27 < f.length),
      List.getElem?_eq_getElem (by omega : 28 < f.length),
      List.getElem?_eq_getElem (by omega : 29 < f.length)]
  simp only [Option.some_bind]
  by_cases h54 : f.length < 14 + (f[14] % 16) * 4 + 20
  · rw [if_pos h54]; rfl
  rw [if_neg h54]
  push_neg at h54
  rw [List.getElem?_eq_getElem (by omega : 14 + (f[14] % 16) * 4 + 13 < f.length)]
  rfl

/-- Classification in the transient variant is total: no out-of-bounds
access for any input frame. -/
theorem xdp_simple_firewall_isSome (st : FWState) (f : List Nat) (now : Nat) :
    (xdp_simple_firewall st f now).isSome := by
  rw [xdp_simple_firewall]
  obtain ⟨po, hpo⟩ := Option.isSome_iff_exists.mp (parseFrame_isSome f)
  rw [hpo, Option.some_bind]
  cases po with
  | malformed => rfl
  | notApplicable => rfl
  | parsed hv =>
      by_cases hsyn : (hv.syn && !hv.ack) = true
      · simp only [hsyn, if_true]
        split <;> rfl
      · simp only [hsyn, if_false]
        rfl

/-- Classification in the blocklist variant is total as well. -/
theorem xdp_firewall_isSome (st : FW2State) (f : List Nat) (now : Nat) :
    (xdp_firewall st f now).isSome := by
  rw [xdp_firewall]
  obtain ⟨po, hpo⟩ := Option.isSome_iff_exists.mp (parseFrame_isSome f)
  rw [hpo, Option.some_bind]
  cases po with
  | malformed => rfl
  | notApplicable => rfl
  | parsed hv =>
      by_cases hsyn : (hv.syn && !hv.ack) = true
      · simp only [hsyn, if_true]
        cases hb : mapLookup ({ st with syn_total := st.syn_total + 1
                              : FW2State }).ip_blocked_map hv.saddr with
        | none => simp only [hb]; split <;> rfl
        | some b => simp only [hb]; rfl
      · simp only [hsyn, if_false]
        rfl

/-- A frame that is laid out as Ethernet/IPv4/TCP but is too short for
the three headers fails one of the bounds checks. -/
theorem short_frame_malformed (f : List Nat) (hshort : f.length < 54)
    (hl : EthIpv4TcpLayout f) : parseFrame f = some ParseOutcome.malformed := by
  rw [parseFrame]
  by_cases h14 : f.length < 14
  · rw [if_pos h14]
  rw [if_neg h14]
  push_neg at h14
  have he := hl.1 h14
  rw [ethertypeOf, List.getElem?_eq_getElem (by omega : 12 < f.length),
      List.getElem?_eq_getElem (by omega : 13 < f.length)] at he
  simp only [Option.getD_some] at he
  simp only [List.getElem?_eq_getElem (by omega : 12 < f.length),
      List.getElem?_eq_getElem (by omega : 13 < f.length), Option.some_bind]
  rw [if_neg (fun hne => hne he)]
  by_cases h34 : f.length < 34
  · rw [if_pos h34]
  rw [if_neg h34]
  push_neg at h34
  obtain ⟨hproto, hihl⟩ := hl.2 h34
  rw [protoOf, List.getElem?_eq_getElem (by omega : 23 < f.length)] at hproto
  simp only [Option.getD_some] at hproto
  rw [ihlOf, List.getElem?_eq_getElem (by omega : 14 < f.length)] at hihl
  simp only [Option.getD_some] at hihl
  simp only [List.getElem?_eq_getElem (by omega : 14 < f.length),
      List.getElem?_eq_getElem (by omega : 23 < f.length), Option.some_bind]
  rw [if_neg (fun hne => hne hproto)]
  simp only [List.getElem?_eq_getElem (by omega : 26 < f.length),
      List.getElem?_eq_getElem (by omega : 27 < f.length),
      List.getElem?_eq_getElem (by omega : 28 < f.length),
      List.getElem?_eq_getElem (by omega : 29 < f.length), Option.some_bind]
  rw [if_pos (by omega : f.length < 14 + (f[14] % 16) * 4 + 20)]

/-- A malformed frame is passed through untouched by the transient variant. -/
theorem malformed_pass (st : FWState) (f : List Nat) (now : Nat)
    (h : parseFrame f = some ParseOutcome.malformed) :
    xdp_simple_firewall st f now = some (st, Verdict.pass) := by
  rw [xdp_simple_firewall, h]
  rfl

/-- A malformed frame is passed through untouched by the blocklist variant. -/
theorem malformed_pass2 (st : FW2State) (f : List Nat) (now : Nat)
    (h : parseFrame f = some ParseOutcome.malformed) :
    xdp_firewall st f now = some (st, Verdict.pass) := by
  rw [xdp_firewall, h]
  rfl

end SafetyLemmas

/-- C4: classification never reads a byte out of bounds (both variants
are total on arbitrary byte strings), a frame failing any of the
bounds checks is classified as pass-through with the state untouched,
and in particular every frame laid out as Ethernet/IPv4/TCP but
shorter than 14+20+20 bytes takes the malformed pass-through path. -/
theorem no_oob_and_short_frames_pass :
    (∀ (st : FWState) (f : List Nat) (now : Nat),
       (xdp_simple_firewall st f now).isSome) ∧
    (∀ (st : FW2State) (f : List Nat) (now : Nat),
       (xdp_firewall st f now).isSome) ∧
    (∀ f : List Nat, f.length < 54 → EthIpv4TcpLayout f →
       parseFrame f = some ParseOutcome.malformed) ∧
    (∀ (st : FWState) (f : List Nat) (now : Nat),
       parseFrame f = some ParseOutcome.malformed →
       xdp_simple_firewall st f now = some (st, Verdict.pass)) ∧
    (∀ (st : FW2State) (f : List Nat) (now : Nat),
       parseFrame f = some ParseOutcome.malformed →
       xdp_firewall st f now = some (st, Verdict.pass)) :=
  ⟨xdp_simple_firewall_isSome, xdp_firewall_isSome, short_frame_malformed,
   malformed_pass, malformed_pass2⟩

/-- Witness for C4 at a concrete input: the 54-byte SYN frame truncated
to 40 bytes is malformed and passed through by both variants. -/
theorem no_oob_and_short_frames_pass_witness :
    parseFrame ((tcpFrame 1 2).take 40) = some ParseOutcome.malformed ∧
    xdp_simple_firewall FWState.init ((tcpFrame 1 2).take 40) 0
      = some (FWState.init, Verdict.pass) ∧
    xdp_firewall FW2State.init ((tcpFrame 1 2).take 40) 0
      = some (FW2State.init, Verdict.pass) := by
  have hm := no_oob_and_short_frames_pass.2.2.1 ((tcpFrame 1 2).take 40)
    (by decide) ⟨fun _ => by decide, fun _ => ⟨by decide, by decide⟩⟩
  exact ⟨hm, no_oob_and_short_frames_pass.2.2.2.1 _ _ 0 hm,
         no_oob_and_short_frames_pass.2.2.2.2 _ _ 0 hm⟩

/-- C8: a parsed TCP-over-IPv4 packet that is not a pure SYN receives
verdict Pass in both variants, and neither the flow-state map nor the
blocklist map is touched (in the blocklist variant only the global
packet counter advances, as the source increments it unconditionally). -/
theorem non_pure_syn_passes_untouched
    (st : FWState) (st2 : FW2State) (f : List Nat) (now : Nat) (hv : HeaderView)
    (hp : parseFrame f = some (ParseOutcome.parsed hv))
    (hns : (hv.syn && !hv.ack) = false) :
    xdp_simple_firewall st f now = some (st, Verdict.pass) ∧
    xdp_firewall st2 f now =
      some ({ st2 with syn_total := st2.syn_total + 1 }, Verdict.pass) := by
  constructor
  · rw [xdp_simple_firewall, hp, Option.some_bind]
    simp [hns]
  · rw [xdp_firewall, hp, Option.some_bind]
    simp [hns]

/-- Witness for C8: a TCP ACK packet passes and leaves the maps alone. -/
theorem non_pure_syn_passes_untouched_witness :
    xdp_simple_firewall FWState.init (tcpFrame 3 16) 0
      = some (FWState.init, Verdict.pass) ∧
    xdp_firewall FW2State.init (tcpFrame 3 16) 0 =
      some ({ FW2State.init with
              syn_total := FW2State.init.syn_total + 1 }, Verdict.pass) :=
  non_pure_syn_passes_untouched FWState.init FW2State.init (tcpFrame 3 16) 0
    ⟨3, false, true⟩ (parse_ackFrame 3) (by decide)

/-- The C return value of check_rate_limit is 0 (admit) for any source
with no flow-table entry, whether or not the insert of the fresh entry
succeeds: the return statement does not consult the update result. -/
theorem crl_absent_snd {m : List (Nat × RateVal)} {src : Nat} (now : Nat)
    (h : mapLookup m src = none) :
    (check_rate_limit m src now).2 = false := by
  by_cases hcap : m.length < MAP_CAPACITY
  · rw [crl_absent now h hcap]
  · rw [crl_absent_full now h (Nat.le_of_not_lt hcap)]

/-- Looking up any key other than k in a table of k-entries finds nothing. -/
theorem mapLookup_replicate_ne {α : Type} (v : α) {k key : Nat} (n : Nat)
    (hne : k ≠ key) : mapLookup (List.replicate n (k, v)) key = none := by
  induction n with
  | zero => rfl
  | succ n ih => simp [List.replicate_succ, mapLookup, hne, ih]

/-- C10: a pure SYN from a source with no flow-table entry is admitted
no matter whether the insert of its fresh entry succeeds; in particular
with the table full of other keys, every SYN of such a source is
admitted forever, never rate-limited, and the table never changes. -/
theorem unknown_source_fail_open
    (st : FWState) (src : Nat) (ns : List Nat)
    (habs : mapLookup st.rate_limit_map src = none)
    (hfull : MAP_CAPACITY ≤ st.rate_limit_map.length) :
    (∀ (st0 : FWState) (n0 : Nat), mapLookup st0.rate_limit_map src = none →
       ∃ st1, xdp_simple_firewall st0 (tcpFrame src 2) n0 = some (st1, Verdict.pass) ∧
         st1.syn_dropped = st0.syn_dropped) ∧
    runFrames st (ns.map fun t => (tcpFrame src 2, t)) =
      some ({ st with syn_total := st.syn_total + ns.length },
            List.replicate ns.length Verdict.pass) := by
  constructor
  · intro st0 n0 h0
    refine ⟨⟨(check_rate_limit st0.rate_limit_map src n0).1,
             st0.syn_total + 1, st0.syn_dropped⟩, ?_, rfl⟩
    rw [xdp_simple_firewall_syn]
    rw [crl_absent_snd n0 h0]
    simp
  · induction ns generalizing st with
    | nil => simp [runFrames]
    | cons t ts ih =>
        have hcrl := crl_absent_full t habs hfull
        have hstep : xdp_simple_firewall st (tcpFrame src 2) t =
            some (⟨st.rate_limit_map, st.syn_total + 1, st.syn_dropped⟩,
                  Verdict.pass) := by
          rw [xdp_simple_firewall_syn, hcrl]
          simp
        have hrest := ih ⟨st.rate_limit_map, st.syn_total + 1, st.syn_dropped⟩
          habs hfull
        simp only [List.map_cons, runFrames, hstep, Option.some_bind, hrest,
          List.length_cons, List.replicate_succ]
        rw [show st.syn_total + 1 + ts.length = st.syn_total + (ts.length + 1)
              from by omega]

/-- Witness for C10: with the flow table full of 16384 records for
key 0, two SYNs from the unknown source 1 both pass, untouched table. -/
theorem unknown_source_fail_open_witness :
    (∀ (st0 : FWState) (n0 : Nat), mapLookup st0.rate_limit_map 1 = none →
       ∃ st1, xdp_simple_firewall st0 (tcpFrame 1 2) n0 = some (st1, Verdict.pass) ∧
         st1.syn_dropped = st0.syn_dropped) ∧
    runFrames ⟨List.replicate 16384 ((0 : Nat), (⟨0, 1⟩ : RateVal)), 7, 2⟩
        (([5, 6] : List Nat).map fun t => (tcpFrame 1 2, t)) =
      some ({ (⟨List.replicate 16384 ((0 : Nat), (⟨0, 1⟩ : RateVal)), 7, 2⟩
               : FWState) with
              syn_total := 7 + ([5, 6] : List Nat).length },
            List.replicate ([5, 6] : List Nat).length Verdict.pass) :=
  unknown_source_fail_open
    ⟨List.replicate 16384 ((0 : Nat), (⟨0, 1⟩ : RateVal)), 7, 2⟩ 1 [5, 6]
    (mapLookup_replicate_ne _ 16384 (by decide))
    (by rw [List.length_replicate]; exact Nat.le_refl 16384)

/-- C2, evaluated at the failing input: the blocklist variant's
stats_map[0] counter (reported as SYN Total) is incremented by a pure
ACK packet, which is not a pure SYN, while the transient variant
leaves its SYN counter untouched on the same packet. -/
theorem v2_total_counts_non_syn_packet :
    xdp_firewall FW2State.init (tcpFrame 3 16) 0 =
      some (⟨[], [], 1⟩, Verdict.pass) ∧
    isPureSyn (tcpFrame 3 16) = false ∧
    xdp_simple_firewall FWState.init (tcpFrame 3 16) 0 =
      some (FWState.init, Verdict.pass) := by
  refine ⟨?_, by decide, ?_⟩ <;> decide

/-- The blocklist-variant state in which source 3 is already blocked. -/
def blockedState : FW2State := ⟨[], [(3, 1)], 0⟩

/-- C3 counterexample: a non-SYN packet (a pure ACK) from the blocked
source 3 receives verdict Pass, because the blocked-source check sits
inside the pure-SYN branch, after the SYN/ACK discriminator. -/
theorem blocked_source_ack_passes :
    xdp_firewall blockedState (tcpFrame 3 16) 0 =
      some (⟨[], [(3, 1)], 1⟩, Verdict.pass) := by decide

/-- C3 amended: once a source is in ip_blocked_map, its pure SYNs are
dropped by the fast-path check before any window update, its non-SYN
packets still pass, and no packet from it ever changes its flow-window
state or removes it from the blocklist. -/
theorem blocked_source_behavior
    (st : FW2State) (f : List Nat) (now : Nat) (hv : HeaderView)
    (hp : parseFrame f = some (ParseOutcome.parsed hv))
    (hb : (mapLookup st.ip_blocked_map hv.saddr).isSome) :
    ∃ st2 v, xdp_firewall st f now = some (st2, v) ∧
      (v = Verdict.drop ↔ (hv.syn && !hv.ack) = true) ∧
      st2.rate_limit_map = st.rate_limit_map ∧
      st2.ip_blocked_map = st.ip_blocked_map := by
  obtain ⟨b, hbv⟩ := Option.isSome_iff_exists.mp hb
  by_cases hsyn : (hv.syn && !hv.ack) = true
  · refine ⟨{ st with syn_total := st.syn_total + 1 }, Verdict.drop, ?_,
      by simp [hsyn], rfl, rfl⟩
    rw [xdp_firewall, hp, Option.some_bind]
    simp only [hsyn, if_true]
    rw [hbv]
  · refine ⟨{ st with syn_total := st.syn_total + 1 }, Verdict.pass, ?_,
      by simp [hsyn], rfl, rfl⟩
    rw [xdp_firewall, hp, Option.some_bind]
    simp only [hsyn, if_false]
    rfl

/-- Witness for C3's amended statement: a pure SYN from the blocked
source 3 is dropped with both maps untouched. -/
theorem blocked_source_behavior_witness :
    ∃ st2 v, xdp_firewall blockedState (tcpFrame 3 2) 0 = some (st2, v) ∧
      (v = Verdict.drop ↔
        ((⟨3, true, false⟩ : HeaderView).syn &&
         !(⟨3, true, false⟩ : HeaderView).ack) = true) ∧
      st2.rate_limit_map = blockedState.rate_limit_map ∧
      st2.ip_blocked_map = blockedState.ip_blocked_map :=
  blocked_source_behavior blockedState (tcpFrame 3 2) 0 ⟨3, true, false⟩
    (parse_synFrame 3) (by decide)

/-- Transient-variant states reachable from program load by any
sequence of processed frames. -/
inductive Reachable : FWState → Prop
  | init : Reachable FWState.init
  | step {st st2 : FWState} {f : List Nat} {now : Nat} {v : Verdict} :
      Reachable st → xdp_simple_firewall st f now = some (st2, v) →
      Reachable st2

/-- Blocklist-variant states reachable from program load. -/
inductive Reachable2 : FW2State → Prop
  | init : Reachable2 FW2State.init
  | step {st st2 : FW2State} {f : List Nat} {now : Nat} {v : Verdict} :
      Reachable2 st → xdp_firewall st f now = some (st2, v) →
      Reachable2 st2

/-- A hash-map update grows the table by at most one entry. -/
theorem length_mapUpdate_le {α : Type} (m : List (Nat × α)) (cap k : Nat)
    (v : α) : (mapUpdate m cap k v).length ≤ m.length + 1 := by
  rw [mapUpdate]
  by_cases h1 : (mapLookup m k).isSome
  · rw [if_pos h1, length_mapReplace]
    omega
  · rw [if_neg h1]
    by_cases h2 : m.length < cap
    · rw [if_pos h2]
      simp
    · rw [if_neg h2]
      omega

/-- One transient-variant step on a successfully parsed frame, written
as a case split on the flags and the rate-limit outcome. -/
theorem xdp_simple_firewall_parsed (st : FWState) (f : List Nat) (now : Nat)
    (hv : HeaderView) (hp : parseFrame f = some (ParseOutcome.parsed hv)) :
    xdp_simple_firewall st f now =
      if hv.syn && !hv.ack then
        if (check_rate_limit st.rate_limit_map hv.saddr now).2 then
          some (⟨(check_rate_limit st.rate_limit_map hv.saddr now).1,
                 st.syn_total + 1, st.syn_dropped + 1⟩, Verdict.drop)
        else
          some (⟨(check_rate_limit st.rate_limit_map hv.saddr now).1,
                 st.syn_total + 1, st.syn_dropped⟩, Verdict.pass)
      else some (st, Verdict.pass) := by
  rw [xdp_simple_firewall, hp, Option.some_bind]

/-- One blocklist-variant step on a successfully parsed frame, written
as a case split on the flags, the blocklist and the rate limiter. -/
theorem xdp_firewall_parsed (st : FW2State) (f : List Nat) (now : Nat)
    (hv : HeaderView) (hp : parseFrame f = some (ParseOutcome.parsed hv)) :
    xdp_firewall st f now =
      if hv.syn && !hv.ack then
        match mapLookup st.ip_blocked_map hv.saddr with
        | some _ => some (⟨st.rate_limit_map, st.ip_blocked_map,
                           st.syn_total + 1⟩, Verdict.drop)
        | none =>
            if (check_rate_limit st.rate_limit_map hv.saddr now).2 then
              some (⟨(check_rate_limit st.rate_limit_map hv.saddr now).1,
                     mapUpdate st.ip_blocked_map MAP_CAPACITY hv.saddr 1,
                     st.syn_total + 1⟩, Verdict.drop)
            else
              some (⟨(check_rate_limit st.rate_limit_map hv.saddr now).1,
                     st.ip_blocked_map, st.syn_total + 1⟩, Verdict.pass)
      else some (⟨st.rate_limit_map, st.ip_blocked_map,
                  st.syn_total + 1⟩, Verdict.pass) := by
  rw [xdp_firewall, hp, Option.some_bind]

/-- One transient-variant step preserves dropped ≤ total. -/
theorem step_preserves_drop_le {st st2 : FWState} {f : List Nat} {now : Nat}
    {v : Verdict} (h : xdp_simple_firewall st f now = some (st2, v))
    (hle : st.syn_dropped ≤ st.syn_total) :
    st2.syn_dropped ≤ st2.syn_total := by
  cases hp : parseFrame f with
  | none => rw [xdp_simple_firewall, hp] at h; simp at h
  | some po =>
      cases po with
      | malformed =>
          rw [xdp_simple_firewall, hp, Option.some_bind] at h
          simp only [Option.some.injEq, Prod.mk.injEq] at h
          rw [← h.1]
          exact hle
      | notApplicable =>
          rw [xdp_simple_firewall, hp, Option.some_bind] at h
          simp only [Option.some.injEq, Prod.mk.injEq] at h
          rw [← h.1]
          exact hle
      | parsed hv =>
          rw [xdp_simple_firewall_parsed st f now hv hp] at h
          by_cases hsyn : (hv.syn && !hv.ack) = true
          · rw [if_pos hsyn] at h
            cases hres : (check_rate_limit st.rate_limit_map hv.saddr now).2 with
            | false =>
                simp only [hres, Bool.false_eq_true, if_false,
                  Option.some.injEq, Prod.mk.injEq] at h
                rw [← h.1]
                show st.syn_dropped ≤ st.syn_total + 1
                omega
            | true =>
                simp only [hres, if_true, Option.some.injEq,
                  Prod.mk.injEq] at h
                rw [← h.1]
                show st.syn_dropped + 1 ≤ st.syn_total + 1
                omega
          · rw [if_neg hsyn] at h
            simp only [Option.some.injEq, Prod.mk.injEq] at h
            rw [← h.1]
            exact hle

/-- Every reachable transient-variant state has dropped ≤ total. -/
theorem reachable_drop_le (st : FWState) (h : Reachable st) :
    st.syn_dropped ≤ st.syn_total := by
  induction h with
  | init => exact Nat.le_refl 0
  | step _ hstep ih => exact step_preserves_drop_le hstep ih

/-- One blocklist-variant step preserves blocked-table size ≤ total. -/
theorem step2_preserves_blocked_le {st st2 : FW2State} {f : List Nat}
    {now : Nat} {v : Verdict} (h : xdp_firewall st f now = some (st2, v))
    (hle : st.ip_blocked_map.length ≤ st.syn_total) :
    st2.ip_blocked_map.length ≤ st2.syn_total := by
  cases hp : parseFrame f with
  | none => rw [xdp_firewall, hp] at h; simp at h
  | some po =>
      cases po with
      | malformed =>
          rw [xdp_firewall, hp, Option.some_bind] at h
          simp only [Option.some.injEq, Prod.mk.injEq] at h
          rw [← h.1]
          exact hle
      | notApplicable =>
          rw [xdp_firewall, hp, Option.some_bind] at h
          simp only [Option.some.injEq, Prod.mk.injEq] at h
          rw [← h.1]
          exact hle
      | parsed hv =>
          rw [xdp_firewall_parsed st f now hv hp] at h
          by_cases hsyn : (hv.syn && !hv.ack) = true
          · rw [if_pos hsyn] at h
            cases hbl : mapLookup st.ip_blocked_map hv.saddr with
            | some b =>
                rw [hbl] at h
                simp only [Option.some.injEq, Prod.mk.injEq] at h
                rw [← h.1]
                show st.ip_blocked_map.length ≤ st.syn_total + 1
                omega
            | none =>
                rw [hbl] at h
                cases hres :
                    (check_rate_limit st.rate_limit_map hv.saddr now).2 with
                | false =>
                    simp only [hres, Bool.false_eq_true, if_false,
                      Option.some.injEq, Prod.mk.injEq] at h
                    rw [← h.1]
                    show st.ip_blocked_map.length ≤ st.syn_total + 1
                    omega
                | true =>
                    simp only [hres, if_true, Option.some.injEq,
                      Prod.mk.injEq] at h
                    rw [← h.1]
                    show (mapUpdate st.ip_blocked_map MAP_CAPACITY
                            hv.saddr 1).length ≤ st.syn_total + 1
                    have := length_mapUpdate_le st.ip_blocked_map
                      MAP_CAPACITY hv.saddr 1
                    omega
          · rw [if_neg hsyn] at h
            simp only [Option.some.injEq, Prod.mk.injEq] at h
            rw [← h.1]
            show st.ip_blocked_map.length ≤ st.syn_total + 1
            omega

/-- Every reachable blocklist-variant state has at most as many blocked
sources as counted packets. -/
theorem reachable2_blocked_le (st : FW2State) (h : Reachable2 st) :
    st.ip_blocked_map.length ≤ st.syn_total := by
  induction h with
  | init => exact Nat.le_refl 0
  | step _ hstep ih => exact step2_preserves_blocked_le hstep ih

/-- success_rate as computed in the final-statistics blocks of all
three monitoring scripts: accepted (an integer difference) over total
as a percentage, with the zero-total case guarded to 0. -/
def success_rate (total dropped : Nat) : Rat :=
  if 0 < total then ((total - dropped : Int) : Rat) / (total : Rat) * 100
  else 0

/-- With dropped at most total, the success rate lies in [0, 100]. -/
theorem success_rate_mem (total dropped : Nat) (hle : dropped ≤ total) :
    0 ≤ success_rate total dropped ∧ success_rate total dropped ≤ 100 := by
  rw [success_rate]
  by_cases h : 0 < total
  · rw [if_pos h]
    have h1 : (0 : Rat) < (total : Rat) := by exact_mod_cast h
    have hleq : (dropped : Rat) ≤ (total : Rat) := by exact_mod_cast hle
    have h0 : (0 : Rat) ≤ ((total - dropped : Int) : Rat) := by
      push_cast
      linarith
    have h2 : ((total - dropped : Int) : Rat) ≤ (total : Rat) := by
      push_cast
      linarith
    constructor
    · exact mul_nonneg (div_nonneg h0 h1.le) (by norm_num)
    · have hdiv : ((total - dropped : Int) : Rat) / (total : Rat) ≤ 1 := by
        rw [div_le_one h1]
        exact h2
      calc ((total - dropped : Int) : Rat) / (total : Rat) * 100
          ≤ 1 * 100 := mul_le_mul_of_nonneg_right hdiv (by norm_num)
        _ = 100 := one_mul 100
  · rw [if_neg h]
    norm_num

/-- C6: the summary success rate is the guarded percentage
accepted/total*100 (0 when the total is zero, never a division fault),
and on every reachable counter state of either variant the value lies
in [0, 100] (the blocklist variant reports the size of its blocked
table as the dropped count). -/
theorem success_rate_guarded_and_bounded :
    (∀ total dropped : Nat, total = 0 → success_rate total dropped = 0) ∧
    (∀ total dropped : Nat, 0 < total →
       success_rate total dropped =
         ((total - dropped : Int) : Rat) / (total : Rat) * 100) ∧
    (∀ st : FWState, Reachable st →
       0 ≤ success_rate st.syn_total st.syn_dropped ∧
       success_rate st.syn_total st.syn_dropped ≤ 100) ∧
    (∀ st : FW2State, Reachable2 st →
       0 ≤ success_rate st.syn_total st.ip_blocked_map.length ∧
       success_rate st.syn_total st.ip_blocked_map.length ≤ 100) := by
  refine ⟨?_, ?_, ?_, ?_⟩
  · intro total dropped h0
    rw [success_rate, if_neg (by omega)]
  · intro total dropped hpos
    rw [success_rate, if_pos hpos]
  · intro st h
    exact success_rate_mem _ _ (reachable_drop_le st h)
  · intro st h
    exact success_rate_mem _ _ (reachable2_blocked_le st h)

/-- Witness for C6: concrete instances of all four conjuncts, including
the bounds at the (reachable) load states of both variants. -/
theorem success_rate_guarded_and_bounded_witness :
    success_rate 0 7 = 0 ∧
    success_rate 50 40 = ((50 - 40 : Int) : Rat) / (50 : Rat) * 100 ∧
    (0 ≤ success_rate FWState.init.syn_total FWState.init.syn_dropped ∧
     success_rate FWState.init.syn_total FWState.init.syn_dropped ≤ 100) ∧
    (0 ≤ success_rate FW2State.init.syn_total
           FW2State.init.ip_blocked_map.length ∧
     success_rate FW2State.init.syn_total
       FW2State.init.ip_blocked_map.length ≤ 100) :=
  ⟨success_rate_guarded_and_bounded.1 0 7 rfl,
   success_rate_guarded_and_bounded.2.1 50 40 (by norm_num),
   success_rate_guarded_and_bounded.2.2.1 FWState.init Reachable.init,
   success_rate_guarded_and_bounded.2.2.2 FW2State.init Reachable2.init⟩

/-- The flat value table assembled by the end-of-run summaries. -/
structure Report where
  synTotal : Nat
  synBlocked : Nat
  synAccepted : Int
  successRate : Rat
  avgCpu : Rat
  avgPps : Rat
deriving DecidableEq

/-- The final-statistics block of XDP_only.py (the except branch):
last list entries, accepted difference, guarded success rate, and the
two means.  Indexing a list from its end and dividing by a length are
fallible in the Python source (IndexError, ZeroDivisionError), so the
result is none exactly when that code would raise; the source guards
neither the trailing-index reads nor the mean denominators. -/
def xdp_summary (syn_totals syn_drops : List Nat)
    (cpu_usages pps_rates : List Rat) : Option Report :=
  (syn_totals.getLast?).bind fun t =>
  (syn_drops.getLast?).bind fun d =>
  if cpu_usages.length = 0 then none else
  if pps_rates.length = 0 then none else
  some ⟨t, d, (t : Int) - (d : Int), success_rate t d,
        cpu_usages.sum / (cpu_usages.length : Rat),
        pps_rates.sum / (pps_rates.length : Rat)⟩

/-- The final-statistics block of iptables_only.py: the total and the
two means are guarded against an empty run in the source, but the
report row still reads syn_drops[-1] and syn_accepts[-1] unguarded, so
an empty run raises all the same (none here).  The guarded total is
therefore only ever reported when both lists are nonempty, where it
equals the sum of their last entries, as written below; the success
rate divides the last accepted count by that total when positive. -/
def iptables_summary (syn_accepts syn_drops : List Nat)
    (cpu_usages pps_rates : List Rat) : Option Report :=
  (syn_drops.getLast?).bind fun d =>
  (syn_accepts.getLast?).bind fun a =>
  some ⟨a + d, d, (a : Int),
        if 0 < a + d then (a : Rat) / ((a + d : Nat) : Rat) * 100 else 0,
        if cpu_usages.length = 0 then 0
        else cpu_usages.sum / (cpu_usages.length : Rat),
        if pps_rates.length = 0 then 0
        else pps_rates.sum / (pps_rates.length : Rat)⟩

/-- C7 counterexample: on an empty sample sequence (a run interrupted
before the first tick) both summaries raise instead of reporting every
value as 0: XDP_only.py hits syn_totals[-1] on an empty list and
iptables_only.py hits syn_drops[-1] on an empty list. -/
theorem empty_run_summary_raises :
    xdp_summary [] [] [] [] = none ∧ iptables_summary [] [] [] [] = none :=
  ⟨rfl, rfl⟩

/-- C7 amended: with at least one sample collected, avg_cpu and
avg_pps are the unweighted arithmetic means sum/length over the full
sample sequences, in both summaries; the empty run is not guarded. -/
theorem summary_means_unweighted
    (ts ds : List Nat) (cs ps : List Rat) (t d : Nat)
    (hts : ts.getLast? = some t) (hds : ds.getLast? = some d)
    (hcs : cs.length ≠ 0) (hps : ps.length ≠ 0) :
    xdp_summary ts ds cs ps =
      some ⟨t, d, (t : Int) - (d : Int), success_rate t d,
            cs.sum / (cs.length : Rat), ps.sum / (ps.length : Rat)⟩ ∧
    iptables_summary ts ds cs ps =
      some ⟨t + d, d, (t : Int),
            if 0 < t + d then (t : Rat) / ((t + d : Nat) : Rat) * 100 else 0,
            cs.sum / (cs.length : Rat), ps.sum / (ps.length : Rat)⟩ := by
  constructor
  · rw [xdp_summary, hts, hds, Option.some_bind, Option.some_bind,
        if_neg hcs, if_neg hps]
  · rw [iptables_summary, hds, hts, Option.some_bind, Option.some_bind,
        if_neg hcs, if_neg hps]

/-- Witness for C7's amended statement at a one-sample run. -/
theorem summary_means_unweighted_witness :
    xdp_summary [5] [1] [2] [4] =
      some ⟨5, 1, (5 : Int) - (1 : Int), success_rate 5 1,
            ([2] : List Rat).sum / ((([2] : List Rat).length : Nat) : Rat),
            ([4] : List Rat).sum / ((([4] : List Rat).length : Nat) : Rat)⟩ ∧
    iptables_summary [5] [1] [2] [4] =
      some ⟨5 + 1, 1, (5 : Int),
            if 0 < 5 + 1 then (5 : Rat) / ((5 + 1 : Nat) : Rat) * 100 else 0,
            ([2] : List Rat).sum / ((([2] : List Rat).length : Nat) : Rat),
            ([4] : List Rat).sum / ((([4] : List Rat).length : Nat) : Rat)⟩ :=
  summary_means_unweighted [5] [1] [2] [4] 5 1 rfl rfl
    (by decide) (by decide)

/-- An iptables jump target of the INPUT rules installed here. -/
inductive Target where
  | accept
  | drop
deriving DecidableEq

/-- The packet attributes the installed INPUT rules can match on: the
"-p tcp --syn" test, and whether the limit module (10/second with
burst 10) still admits the packet. -/
structure IptPacket where
  tcpSyn : Bool
  withinLimit : Bool
deriving DecidableEq

/-- One iptables INPUT rule as installed by setup_iptables: its two
possible match conditions and its jump target. -/
structure IptRule where
  matchTcpSyn : Bool
  matchLimit : Bool
  target : Target
deriving DecidableEq

/-- Whether a rule matches a packet: every present condition holds. -/
def ruleMatches (r : IptRule) (p : IptPacket) : Bool :=
  (!r.matchTcpSyn || p.tcpSyn) && (!r.matchLimit || p.withinLimit)

/-- The INPUT chain installed by setup_iptables in iptables_only.py
after the flush, in order of the three append calls: accept SYN within
the rate limit, drop remaining SYN, accept everything else. -/
def setup_iptables : List IptRule :=
  [⟨true, true, Target.accept⟩, ⟨true, false, Target.drop⟩,
   ⟨false, false, Target.accept⟩]

/-- Sequential first-match evaluation of an iptables chain; the INPUT
policy default ACCEPT applies if no rule matches. -/
def evalChain : List IptRule → IptPacket → Target
  | [], _ => Target.accept
  | r :: rest, p => if ruleMatches r p then r.target else evalChain rest p

/-- C9: setup_iptables installs exactly three INPUT rules, in order the
allow-with-rate-limit rule for SYN, the unconditional drop rule for
SYN, and the final unconditional accept; under first-match evaluation
a SYN packet is accepted iff the rate limit admits it, and every
non-SYN packet reaches the final accept. -/
theorem iptables_rule_order (p : IptPacket) :
    setup_iptables.length = 3 ∧
    setup_iptables =
      [⟨true, true, Target.accept⟩, ⟨true, false, Target.drop⟩,
       ⟨false, false, Target.accept⟩] ∧
    evalChain setup_iptables p =
      (if p.tcpSyn then
         (if p.withinLimit then Target.accept else Target.drop)
       else Target.accept) := by
  refine ⟨rfl, rfl, ?_⟩
  cases hs : p.tcpSyn <;> cases hw : p.withinLimit <;>
    simp [evalChain, setup_iptables, ruleMatches, hs, hw]

/-- Witness for C9 at a concrete packet: an over-limit SYN is dropped. -/
theorem iptables_rule_order_witness :
    setup_iptables.length = 3 ∧
    setup_iptables =
      [⟨true, true, Target.accept⟩, ⟨true, false, Target.drop⟩,
       ⟨false, false, Target.accept⟩] ∧
    evalChain setup_iptables ⟨true, false⟩ =
      (if (⟨true, false⟩ : IptPacket).tcpSyn then
         (if (⟨true, false⟩ : IptPacket).withinLimit then Target.accept
          else Target.drop)
       else Target.accept) :=
  iptables_rule_order ⟨true, false⟩

end EBPF

